import Mathlib

/-!
Verification of the sass-spec conformance-test runner and its jest matcher
extensions. The development embeds, in Lean:

* the spec execution engine's decision policy (`runSpec`), which classifies
  each test case as pass / fail / skip / todo from its descriptor flags
  (`ignore`, `todo`, `warningTodo`), the run mode, and the captured process
  result;
* the archive materializer (`writeToDisk`, `cleanup`) over an abstract
  filesystem (a list of path / byte-content pairs);
* the custom matchers from `js-api-spec/utils.ts` (`toThrowSassException`
  with its helper `verifyThrown`, and `toEqualWithHash`), with JavaScript
  truthiness of the option values made explicit;
* the stdio capture helpers (`captureStdio`), with the stream interception
  hook stack passed as explicit state.
-/

/-- Run mode for the engine: `normal`, `run-todo` (`todoMode: "run"`), or
`probe-todo` (`todoMode: "probe"`). -/
inductive RunMode where
  | normal
  | runTodo
  | probeTodo
deriving DecidableEq, Repr

/-- Final classification of one spec case. -/
inductive Outcome where
  | pass
  | fail
  | skip
  | todo
deriving DecidableEq, Repr

/-- The expected-outcome kind of a case: either the captured stdout must
match an expected output, or the reported error must match an expected
error. Exactly one applies per case. -/
inductive ExpectKind where
  | outputMatch (expected : String)
  | errorMatch (expectedError : String)
deriving DecidableEq, Repr

/-- Resolved per-case configuration: expectation kind, the optional
expected-warning list (absent means "do not check warnings"), and the
behavioral flags. -/
structure CaseDescriptor where
  kind : ExpectKind
  expectedWarnings : Option (List String)
  ignore : Bool
  todo : Bool
  warningTodo : Bool
deriving DecidableEq, Repr

/-- Captured result of invoking the implementation under test: stdout, the
reported error text, the exit code, and the emitted warnings in order. -/
structure ProcResult where
  stdout : String
  errText : String
  exitCode : Int
  warnings : List String
deriving DecidableEq, Repr

/-- Modelled from the spec: the primary output/error check of the engine's
step 3 (the `runSpec` implementation in `lib-js/spec` is not among the
given sources; only its tests are). Pass requires, for an output-match
case, stdout equal to the expected output and a successful exit code; for
an error-match case, the reported error equal to the expected error and a
failing exit code. -/
def primaryOk (kind : ExpectKind) (proc : ProcResult) : Bool :=
  match kind with
  | ExpectKind.outputMatch expected => proc.stdout == expected && proc.exitCode == 0
  | ExpectKind.errorMatch expected => proc.errText == expected && proc.exitCode != 0

/-- Modelled from the spec: the warning check is suppressed exactly when the
case's `warningTodo` flag is set and the run mode is `normal`; under
`run-todo` the suppression is lifted. -/
def warningCheckActive (desc : CaseDescriptor) (mode : RunMode) : Bool :=
  !(desc.warningTodo && mode == RunMode.normal)

/-- Modelled from the spec: the warning policy of the engine's step 4. When
the check is active and the descriptor specifies an expected warning list,
the emitted warnings must equal it exactly and in order; an absent expected
list means the warnings are not checked. -/
def warningsOk (desc : CaseDescriptor) (mode : RunMode) (proc : ProcResult) : Bool :=
  if warningCheckActive desc mode then
    match desc.expectedWarnings with
    | none => true
    | some ws => proc.warnings == ws
  else
    true

/-- Modelled from the spec: `rawOutcome` of the engine's step 3: pass when
both the primary check and the warning policy hold, fail otherwise. -/
def rawOutcome (desc : CaseDescriptor) (mode : RunMode) (proc : ProcResult) : Outcome :=
  if primaryOk desc.kind proc && warningsOk desc mode proc then Outcome.pass
  else Outcome.fail

/-- Modelled from the spec: the todo policy of the engine's step 5. With the
`todo` flag set: normal mode forces `todo`; run-todo mode returns the raw
outcome; probe-todo turns a raw fail into `todo` and a raw pass into
`fail`. Without the flag the raw outcome stands. -/
def applyTodoPolicy (todoFlag : Bool) (mode : RunMode) (raw : Outcome) : Outcome :=
  if todoFlag then
    match mode with
    | RunMode.normal => Outcome.todo
    | RunMode.runTodo => raw
    | RunMode.probeTodo => if raw == Outcome.fail then Outcome.todo else Outcome.fail
  else
    raw

/-- Modelled from the spec: the engine `runSpec` (implementation in
`lib-js/spec`, not among the given sources). Returns the final outcome
together with a flag recording whether the process under test was invoked:
an `ignore` case is skipped without invocation; otherwise the process runs
and the todo policy is applied to the raw outcome. -/
def runSpec (desc : CaseDescriptor) (mode : RunMode) (proc : ProcResult) :
    Outcome × Bool :=
  if desc.ignore then (Outcome.skip, false)
  else (applyTodoPolicy desc.todo mode (rawOutcome desc mode proc), true)

/-! ### Archive tree materializer

Modelled from the spec: the `SpecPath` materializer (`lib-js/spec-path`) is
not among the given sources; only its tests are. The archive is a tree of
named entries; the filesystem is an explicit list of path / byte-content
pairs; `writeToDisk` realizes a subtree at a destination path and `cleanup`
removes everything under a root path. -/

mutual
/-- A node of the decoded archive tree: a file with byte content, or a
directory with an ordered list of children. -/
inductive ArchiveEntry where
  | file (name : String) (content : List Nat)
  | dir (name : String) (children : EntryList)
/-- An ordered list of archive entries (the children of a directory). -/
inductive EntryList where
  | nil
  | cons (head : ArchiveEntry) (tail : EntryList)
end

/-- The name of an archive entry. -/
def nameOf : ArchiveEntry → String
  | ArchiveEntry.file n _ => n
  | ArchiveEntry.dir n _ => n

/-- Find the child of a directory with the given name. -/
def findChild : EntryList → String → Option ArchiveEntry
  | EntryList.nil, _ => none
  | EntryList.cons h t, seg => if nameOf h = seg then some h else findChild t seg

/-- Modelled from the spec: path-based navigation through the archive tree,
resolving a sequence of segments to a node; `none` when a segment is
absent. -/
def navigate : ArchiveEntry → List String → Option ArchiveEntry
  | e, [] => some e
  | e, seg :: rest =>
    match e with
    | ArchiveEntry.file _ _ => none
    | ArchiveEntry.dir _ children =>
      match findChild children seg with
      | some c => navigate c rest
      | none => none

/-- The abstract filesystem: a list of (absolute path, byte content) pairs,
one per materialized file. -/
def FS : Type := List (List String × List Nat)

mutual
/-- Modelled from the spec: materializing an archive subtree onto the
filesystem at a destination path, preserving byte-exact content and the
relative structure; returns the created file entries. -/
def writeToDisk : ArchiveEntry → List String → List (List String × List Nat)
  | ArchiveEntry.file _ content, dest => [(dest, content)]
  | ArchiveEntry.dir _ children, dest => writeList children dest
/-- Materialize each child of a directory under its own name. -/
def writeList : EntryList → List String → List (List String × List Nat)
  | EntryList.nil, _ => []
  | EntryList.cons h t, dest => writeToDisk h (dest ++ [nameOf h]) ++ writeList t dest
end

/-- Read the byte content of the file at a path, `none` when absent. -/
def lookupFS : List (List String × List Nat) → List String → Option (List Nat)
  | [], _ => none
  | (q, c) :: rest, p => if q = p then some c else lookupFS rest p

/-- No string occurs twice in the list. -/
def nodupNames : List String → Bool
  | [] => true
  | x :: xs => !(xs.contains x) && nodupNames xs

/-- The names of the entries of a list, in order. -/
def namesOf : EntryList → List String
  | EntryList.nil => []
  | EntryList.cons h t => nameOf h :: namesOf t

mutual
/-- The archive invariant: within every directory, child names are
unique. -/
def uniqueNames : ArchiveEntry → Bool
  | ArchiveEntry.file _ _ => true
  | ArchiveEntry.dir _ ch => nodupNames (namesOf ch) && uniqueList ch
/-- `uniqueNames` for every entry of a list. -/
def uniqueList : EntryList → Bool
  | EntryList.nil => true
  | EntryList.cons h t => uniqueNames h && uniqueList t
end

/-- Whether the first path is a leading segment sequence of the second. -/
def underRoot : List String → List String → Bool
  | [], _ => true
  | _ :: _, [] => false
  | r :: rs, p :: ps => r == p && underRoot rs ps

/-- Modelled from the spec: cleanup recursively deletes the owned subtree —
every filesystem entry under the handle's root path is removed; calling it
on an already-cleaned handle finds nothing to remove (total function, never
throws). -/
def cleanup (fs : List (List String × List Nat)) (root : List String) :
    List (List String × List Nat) :=
  fs.filter (fun pr => !(underRoot root pr.1))

/-! ### Custom matchers (`src/js-api-spec/utils.ts`)

The matcher code is given in the sources; state (thrown values, promise
behavior, the ambient stream interception) is embedded explicitly.
JavaScript truthiness of the option values (`url && ...`, `noUrl && ...`,
`line && ...`) is made explicit: `none` models an omitted option, and the
falsy values `0`, `""` and `false` are distinguished from truthy ones. -/

/-- A source span attached to a `sass.Exception`: an optional URL (modelled
by its string form; a present URL object is truthy and stringifies to a
nonempty string) and the optional start line (`span.start?.line`). -/
structure SpanModel where
  url : Option String
  startLine : Option Nat
deriving DecidableEq, Repr

/-- A thrown JavaScript value: either a `sass.Exception` carrying its span,
the truthiness of its `sassMessage` and `sassStack` fields, and its display
string (the text `${thrown}` interpolates to); or any other value with its
display string. -/
inductive Thrown where
  | sassException (span : SpanModel) (sassMessage : Bool) (sassStack : Bool)
      (display : String)
  | other (display : String)
deriving DecidableEq, Repr

/-- The options object of `toThrowSassException`: `line?`, `url?`, `noUrl?`;
`none` models an omitted property. -/
structure ToThrowSassExceptionOptions where
  line : Option Nat := none
  url : Option String := none
  noUrl : Option Bool := none
deriving DecidableEq, Repr

/-- The result of a matcher: `pass` and the failure/negation message (the
source's message thunk, modelled by the string it returns). -/
structure SyncExpectationResult where
  pass : Bool
  message : String
deriving DecidableEq, Repr

/-- JavaScript truthiness of an optional number (`0` is falsy). -/
def numTruthy : Option Nat → Bool
  | none => false
  | some n => n != 0

/-- JavaScript truthiness of an optional string (`""` is falsy). -/
def strTruthy : Option String → Bool
  | none => false
  | some s => s != ""

/-- JavaScript truthiness of an optional boolean. -/
def boolTruthy : Option Bool → Bool
  | none => false
  | some b => b

/-- How `${...}` renders an optional string (`undefined` when absent). -/
def showOptStr : Option String → String
  | none => "undefined"
  | some s => s

/-- How `${...}` renders an optional number (`undefined` when absent). -/
def showOptNat : Option Nat → String
  | none => "undefined"
  | some n => toString n

/-- The `verifyThrown` helper: checks, in order, that the thrown value is a
`sass.Exception`; that a truthy `url` option equals the span's URL; that a
truthy `noUrl` option finds no span URL; that a truthy `line` option equals
the span's start line; and that the `sassMessage` and `sassStack` fields
are present; each failing check short-circuits with its own message. -/
def verifyThrown (thrown : Thrown) (opts : ToThrowSassExceptionOptions) :
    SyncExpectationResult :=
  match thrown with
  | Thrown.other display =>
    { pass := false, message := "expected " ++ display ++ " to be a sass.Exception" }
  | Thrown.sassException span sassMessage sassStack display =>
    if strTruthy opts.url && !(span.url == opts.url) then
      { pass := false,
        message := "expected " ++ showOptStr opts.url ++ ", was "
          ++ showOptStr span.url ++ ":\n" ++ display }
    else if boolTruthy opts.noUrl && span.url.isSome then
      { pass := false, message := "expected no URL:\n" ++ display }
    else if numTruthy opts.line && !(span.startLine == opts.line) then
      { pass := false,
        message := "expected to start on line " ++ showOptNat opts.line
          ++ ", was " ++ showOptNat span.startLine ++ ":\n" ++ display }
    else if !sassMessage then
      { pass := false, message := "expected a sassMessage field:\n" ++ display }
    else if !sassStack then
      { pass := false, message := "expected a sassStack field:\n" ++ display }
    else if strTruthy opts.url then
      { pass := true,
        message := "expected not " ++ showOptStr opts.url ++ ":\n" ++ display }
    else if boolTruthy opts.noUrl then
      { pass := true, message := "expected a URL:\n" ++ display }
    else if numTruthy opts.line then
      { pass := true,
        message := "expected not to start on line " ++ showOptNat opts.line
          ++ ":\n" ++ display }
    else
      { pass := true,
        message := "expected not to throw a sass.Exception:\n" ++ display }

/-- The behavior of the value passed to `toThrowSassException`: not a
function; a function returning a non-Promise value; a function throwing
synchronously; a function returning a Promise that resolves; or a function
returning a Promise that rejects. Carries the display string of the
received value. -/
inductive ReceivedCallback where
  | notFunction (display : String)
  | syncReturnsValue (display : String)
  | syncThrows (thrown : Thrown) (display : String)
  | promiseResolves (display : String)
  | promiseRejects (thrown : Thrown) (display : String)
deriving DecidableEq, Repr

/-- The `toThrowSassException` matcher: a non-function argument throws an
`Error` (modelled by `Except.error`); a normal return — a synchronous
non-Promise value or a resolving Promise — fails with an
"expected ... to throw" message; a synchronous throw or a rejecting
Promise is handed to `verifyThrown`. -/
def toThrowSassException (received : ReceivedCallback)
    (opts : ToThrowSassExceptionOptions) :
    Except String SyncExpectationResult :=
  match received with
  | ReceivedCallback.notFunction _ => Except.error "Received value must be a function"
  | ReceivedCallback.syncReturnsValue d =>
    Except.ok { pass := false, message := "expected " ++ d ++ " to throw" }
  | ReceivedCallback.syncThrows t _ => Except.ok (verifyThrown t opts)
  | ReceivedCallback.promiseResolves d =>
    Except.ok { pass := false, message := "expected " ++ d ++ " to throw" }
  | ReceivedCallback.promiseRejects t _ => Except.ok (verifyThrown t opts)

/-- The reference value passed to `toEqualWithHash` (an
`immutable.ValueObject`): its hash code and display string. -/
structure RefValue where
  hashCode : Int
  display : String

/-- The structural shape of the value received by `toEqualWithHash`: not an
object (or null); an object without a function-valued `equals`; an object
with `equals` but without a function-valued `hashCode`; or a value object
with an `equals` predicate over reference values and a hash code. Carries
the display string (standing for both `util.inspect(received)` and the
template interpolation `${received}`). -/
inductive ReceivedVal where
  | nonObject (display : String)
  | objNoEquals (display : String)
  | objNoHashCode (display : String)
  | valueObj (equalsFn : RefValue → Bool) (hashCode : Int) (display : String)

/-- The `toEqualWithHash` matcher: checks that the received value is a
non-null object, has an `equals` method, has a `hashCode` method, equals
the reference, and has the reference's hash code — failing with a dedicated
message at the first check that does not hold, and passing otherwise. -/
def toEqualWithHash (received : ReceivedVal) (actual : RefValue) :
    SyncExpectationResult :=
  match received with
  | ReceivedVal.nonObject d =>
    { pass := false, message := "expected " ++ d ++ " to be an object" }
  | ReceivedVal.objNoEquals d =>
    { pass := false, message := "expected " ++ d ++ " to have an \"equals\" method" }
  | ReceivedVal.objNoHashCode d =>
    { pass := false, message := "expected " ++ d ++ " to have a \"hashCode\" method" }
  | ReceivedVal.valueObj equalsFn hash d =>
    if !(equalsFn actual) then
      { pass := false,
        message := "expected " ++ d ++ " to be .equal() to " ++ actual.display }
    else if hash != actual.hashCode then
      { pass := false,
        message := "expected " ++ d ++ " to have the same .hashCode() as "
          ++ actual.display }
    else
      { pass := true,
        message := "expected " ++ d ++ " not to be .equal() to " ++ actual.display }

/-! Claim-side check predicates for `verifyThrown`, written from the spec's
ordered list of sub-checks; non-exceptions satisfy the span/field checks
vacuously. -/

/-- Check 1: the thrown value is a `sass.Exception`. -/
def chkSassException : Thrown → Bool
  | Thrown.sassException _ _ _ _ => true
  | Thrown.other _ => false

/-- Check 2: if a (truthy) url option is given, the span's URL equals it. -/
def chkUrl (t : Thrown) (opts : ToThrowSassExceptionOptions) : Bool :=
  match t with
  | Thrown.other _ => true
  | Thrown.sassException span _ _ _ => !(strTruthy opts.url) || span.url == opts.url

/-- Check 3: if `noUrl` is (truthily) requested, the span carries no URL. -/
def chkNoUrl (t : Thrown) (opts : ToThrowSassExceptionOptions) : Bool :=
  match t with
  | Thrown.other _ => true
  | Thrown.sassException span _ _ _ => !(boolTruthy opts.noUrl) || !(span.url.isSome)

/-- Check 4: if a (truthy) line option is given, the span starts on it. -/
def chkLine (t : Thrown) (opts : ToThrowSassExceptionOptions) : Bool :=
  match t with
  | Thrown.other _ => true
  | Thrown.sassException span _ _ _ => !(numTruthy opts.line) || span.startLine == opts.line

/-- Check 5: the exception has a `sassMessage` field. -/
def chkSassMessage : Thrown → Bool
  | Thrown.other _ => true
  | Thrown.sassException _ m _ _ => m

/-- Check 6: the exception has a `sassStack` field. -/
def chkSassStack : Thrown → Bool
  | Thrown.other _ => true
  | Thrown.sassException _ _ s _ => s

/-- The display string of a thrown value. -/
def displayOf : Thrown → String
  | Thrown.sassException _ _ _ d => d
  | Thrown.other d => d

/-- The span URL of a thrown value (none for non-exceptions). -/
def spanUrlOf : Thrown → Option String
  | Thrown.sassException span _ _ _ => span.url
  | Thrown.other _ => none

/-- The span start line of a thrown value (none for non-exceptions). -/
def startLineOf : Thrown → Option Nat
  | Thrown.sassException span _ _ _ => span.startLine
  | Thrown.other _ => none

/-! ### Stdio capture (`captureStdio` / `captureStdioAsync`)

The global stream interception is embedded as explicit state: the stack of
installed hooks. A block's behavior is the text it writes to each stream
and whether it throws (for the async variant: whether its Promise
rejects). -/

/-- Install a stdout/stderr interception hook (what `interceptStdout`
does), pushing it onto the global hook stack. -/
def installHook (st : List Nat) : List Nat := st.length :: st

/-- Remove the most recently installed hook (what the returned `unhook`
does). -/
def unhook (st : List Nat) : List Nat := st.tail

/-- The observable behavior of the block passed to `captureStdio`: the
chunks it writes to stdout and to stderr, and the exception it throws, if
any (for the async variant: the rejection of its Promise). -/
structure BlockBehavior (E : Type) where
  outChunks : List String
  errChunks : List String
  thrown : Option E

/-- `captureStdio`: installs the interception hook, runs the block
accumulating its stdout and stderr text, and — in a `finally` — removes the
hook before control returns, whether the block completed or threw; a throw
propagates to the caller (`Except.error`) and no captured text is returned
in that case. Returns the hook stack after the call with the result. -/
def captureStdio {E : Type} (st : List Nat) (block : BlockBehavior E) :
    List Nat × Except E (String × String) :=
  let st1 := installHook st
  let out := String.join block.outChunks
  let err := String.join block.errChunks
  let st2 := unhook st1
  match block.thrown with
  | some e => (st2, Except.error e)
  | none => (st2, Except.ok (out, err))

/-- `captureStdioAsync`: identical to `captureStdio` with `await block()` in
place of `block()`; the block's Promise rejection plays the role of the
throw. -/
def captureStdioAsync {E : Type} (st : List Nat) (block : BlockBehavior E) :
    List Nat × Except E (String × String) :=
  let st1 := installHook st
  let out := String.join block.outChunks
  let err := String.join block.errChunks
  let st2 := unhook st1
  match block.thrown with
  | some e => (st2, Except.error e)
  | none => (st2, Except.ok (out, err))

/-- Looking up a path that no entry has yields `none`. -/
theorem lookupFS_eq_none (fs : List (List String × List Nat)) (p : List String)
    (h : ∀ pr ∈ fs, pr.1 ≠ p) : lookupFS fs p = none := by
  induction fs with
  | nil => rfl
  | cons hd tl ih =>
    have hne : hd.1 ≠ p := h hd (List.mem_cons_self hd tl)
    have : lookupFS (hd :: tl) p = if hd.1 = p then some hd.2 else lookupFS tl p := rfl
    rw [this, if_neg hne]
    exact ih (fun pr hpr => h pr (List.mem_cons_of_mem hd hpr))

/-- Looking up in a concatenation searches the left part first. -/
theorem lookupFS_append (a b : List (List String × List Nat)) (p : List String) :
    lookupFS (a ++ b) p =
      match lookupFS a p with
      | some c => some c
      | none => lookupFS b p := by
  induction a with
  | nil => rfl
  | cons hd tl ih =>
    have h1 : lookupFS ((hd :: tl) ++ b) p
        = if hd.1 = p then some hd.2 else lookupFS (tl ++ b) p := rfl
    have h2 : lookupFS (hd :: tl) p
        = if hd.1 = p then some hd.2 else lookupFS tl p := rfl
    rw [h1, h2]
    by_cases hc : hd.1 = p
    · simp [hc]
    · simp [hc, ih]

mutual
/-- Every path written by `writeToDisk` extends the destination path. -/
theorem writeToDisk_path (e : ArchiveEntry) (dest : List String)
    (pr : List String × List Nat) (h : pr ∈ writeToDisk e dest) :
    ∃ t, pr.1 = dest ++ t :=
  match e, h with
  | ArchiveEntry.file nm content, h => by
    have hw : writeToDisk (ArchiveEntry.file nm content) dest = [(dest, content)] := rfl
    rw [hw] at h
    have hpr : pr = (dest, content) := List.mem_singleton.mp h
    exact ⟨[], by simp [hpr]⟩
  | ArchiveEntry.dir nm children, h => by
    have hw : writeToDisk (ArchiveEntry.dir nm children) dest = writeList children dest := rfl
    rw [hw] at h
    obtain ⟨n, t, _, hp⟩ := writeList_path children dest pr h
    exact ⟨n :: t, hp⟩
/-- Every path written by `writeList` extends the destination path by a
segment that is the name of one of the entries. -/
theorem writeList_path (l : EntryList) (dest : List String)
    (pr : List String × List Nat) (h : pr ∈ writeList l dest) :
    ∃ n t, n ∈ namesOf l ∧ pr.1 = dest ++ n :: t :=
  match l, h with
  | EntryList.nil, h => by
    have hw : writeList EntryList.nil dest = [] := rfl
    rw [hw] at h
    exact absurd h (List.not_mem_nil pr)
  | EntryList.cons hd tl, h => by
    have hw : writeList (EntryList.cons hd tl) dest
        = writeToDisk hd (dest ++ [nameOf hd]) ++ writeList tl dest := rfl
    rw [hw] at h
    rcases List.mem_append.mp h with hmem | hmem
    · obtain ⟨t, hp⟩ := writeToDisk_path hd (dest ++ [nameOf hd]) pr hmem
      refine ⟨nameOf hd, t, ?_, ?_⟩
      · simp [namesOf]
      · rw [hp, List.append_assoc]
        rfl
    · obtain ⟨n, t, hn, hp⟩ := writeList_path tl dest pr hmem
      refine ⟨n, t, ?_, hp⟩
      have : namesOf (EntryList.cons hd tl) = nameOf hd :: namesOf tl := rfl
      rw [this]
      exact List.mem_cons_of_mem _ hn
end

/-- No file written by `writeList` lives at a path whose next segment is not
among the entries' names. -/
theorem lookup_writeList_none (l : EntryList) (dest : List String) (seg : String)
    (rest : List String) (h : seg ∉ namesOf l) :
    lookupFS (writeList l dest) (dest ++ seg :: rest) = none := by
  apply lookupFS_eq_none
  intro pr hpr heq
  obtain ⟨n, t, hn, hp⟩ := writeList_path l dest pr hpr
  rw [hp] at heq
  have := (List.append_right_inj dest).mp heq
  have hns : n = seg := (List.cons.injEq _ _ _ _).mp this |>.1
  exact h (hns ▸ hn)

/-- Looking up a materialized directory at a path starting with `seg`
reduces to looking up the subtree of the child named `seg`, provided the
children's names are unique. -/
theorem lookup_writeList (l : EntryList) (dest : List String) (seg : String)
    (rest : List String) (c0 : ArchiveEntry)
    (hnodup : nodupNames (namesOf l) = true)
    (hfind : findChild l seg = some c0) :
    lookupFS (writeList l dest) (dest ++ seg :: rest) =
      lookupFS (writeToDisk c0 (dest ++ [seg])) (dest ++ seg :: rest) :=
  match l, hnodup, hfind with
  | EntryList.nil, _, hfind => absurd hfind (by simp [findChild])
  | EntryList.cons hd tl, hnodup, hfind => by
    have hw : writeList (EntryList.cons hd tl) dest
        = writeToDisk hd (dest ++ [nameOf hd]) ++ writeList tl dest := rfl
    have hnames : namesOf (EntryList.cons hd tl) = nameOf hd :: namesOf tl := rfl
    rw [hnames] at hnodup
    have hsplit : (!((namesOf tl).contains (nameOf hd))
        && nodupNames (namesOf tl)) = true := hnodup
    rw [Bool.and_eq_true] at hsplit
    have hnodup' : nodupNames (namesOf tl) = true := hsplit.2
    have hnotmem : nameOf hd ∉ namesOf tl := by
      intro hmem
      have hc := hsplit.1
      rw [Bool.not_eq_true'] at hc
      simp at hc
      exact hc hmem
    rw [hw, lookupFS_append]
    by_cases hs : nameOf hd = seg
    · have hfc : findChild (EntryList.cons hd tl) seg = some hd := by
        simp [findChild, hs]
      rw [hfc] at hfind
      have hc0 : c0 = hd := ((Option.some.injEq _ _).mp hfind).symm
      subst hc0
      have hnone : lookupFS (writeList tl dest) (dest ++ seg :: rest) = none :=
        lookup_writeList_none tl dest seg rest (hs ▸ hnotmem)
      rw [hnone, hs]
      cases lookupFS (writeToDisk c0 (dest ++ [seg])) (dest ++ seg :: rest) <;> rfl
    · have hfc : findChild (EntryList.cons hd tl) seg = findChild tl seg := by
        simp [findChild, hs]
      rw [hfc] at hfind
      have hnone : lookupFS (writeToDisk hd (dest ++ [nameOf hd])) (dest ++ seg :: rest)
          = none := by
        apply lookupFS_eq_none
        intro pr hpr heq
        obtain ⟨t, hp⟩ := writeToDisk_path hd (dest ++ [nameOf hd]) pr hpr
        rw [hp, List.append_assoc] at heq
        have := (List.append_right_inj dest).mp heq
        exact hs ((List.cons.injEq _ _ _ _).mp this).1
      rw [hnone]
      exact lookup_writeList tl dest seg rest c0 hnodup' hfind

/-- A child found in a list all of whose entries satisfy the uniqueness
invariant satisfies it too. -/
theorem uniqueList_findChild (l : EntryList) (seg : String) (c : ArchiveEntry)
    (hu : uniqueList l = true) (hf : findChild l seg = some c) :
    uniqueNames c = true :=
  match l, hu, hf with
  | EntryList.nil, _, hf => absurd hf (by simp [findChild])
  | EntryList.cons hd tl, hu, hf => by
    have hu' : (uniqueNames hd && uniqueList tl) = true := hu
    rw [Bool.and_eq_true] at hu'
    by_cases hs : nameOf hd = seg
    · have : findChild (EntryList.cons hd tl) seg = some hd := by simp [findChild, hs]
      rw [this] at hf
      exact (Option.some.injEq _ _).mp hf ▸ hu'.1
    · have : findChild (EntryList.cons hd tl) seg = findChild tl seg := by
        simp [findChild, hs]
      rw [this] at hf
      exact uniqueList_findChild tl seg c hu'.2 hf

/-- Round-trip: a file reachable in the archive tree by `navigate` is read
back, byte-exact, from the materialized filesystem at the translated
path. -/
theorem lookup_writeToDisk (p : List String) (e : ArchiveEntry) (dest : List String)
    (n : String) (c : List Nat) (hu : uniqueNames e = true)
    (hnav : navigate e p = some (ArchiveEntry.file n c)) :
    lookupFS (writeToDisk e dest) (dest ++ p) = some c := by
  induction p generalizing e dest with
  | nil =>
    have he : e = ArchiveEntry.file n c := by
      have : navigate e [] = some e := rfl
      rw [this] at hnav
      exact (Option.some.injEq _ _).mp hnav
    subst he
    simp [writeToDisk, lookupFS]
  | cons seg rest ih =>
    cases e with
    | file n' c' => exact absurd hnav (by simp [navigate])
    | dir n' children =>
      have hu' : (nodupNames (namesOf children) && uniqueList children) = true := hu
      rw [Bool.and_eq_true] at hu'
      have hnodup := hu'.1
      have hul := hu'.2
      cases hfc : findChild children seg with
      | none =>
        have : navigate (ArchiveEntry.dir n' children) (seg :: rest) = none := by
          simp [navigate, hfc]
        rw [this] at hnav
        exact absurd hnav (by simp)
      | some c0 =>
        have hnav' : navigate c0 rest = some (ArchiveEntry.file n c) := by
          have : navigate (ArchiveEntry.dir n' children) (seg :: rest)
              = navigate c0 rest := by simp [navigate, hfc]
          rw [this] at hnav
          exact hnav
        have hw : writeToDisk (ArchiveEntry.dir n' children) dest
            = writeList children dest := rfl
        rw [hw, lookup_writeList children dest seg rest c0 hnodup hfc]
        have hassoc : dest ++ seg :: rest = (dest ++ [seg]) ++ rest := by
          rw [List.append_assoc]
          rfl
        rw [hassoc]
        exact ih c0 (dest ++ [seg]) (uniqueList_findChild children seg c0 hul hfc) hnav'

/-- A root path is a leading segment sequence of any of its extensions. -/
theorem underRoot_append (r q : List String) : underRoot r (r ++ q) = true := by
  induction r with
  | nil => rfl
  | cons hd tl ih => simp [underRoot, ih]

/-- C1: for a case with `todo` set and `ignore` not set, the final outcome is
`todo` in normal mode regardless of the raw outcome; equals the raw outcome
in run-todo mode; and in probe-todo mode a raw fail yields `todo` while a
raw pass yields `fail`. -/
theorem runSpec_todo_policy (desc : CaseDescriptor) (proc : ProcResult)
    (htodo : desc.todo = true) (hign : desc.ignore = false) :
    (runSpec desc RunMode.normal proc).1 = Outcome.todo
    ∧ (runSpec desc RunMode.runTodo proc).1 = rawOutcome desc RunMode.runTodo proc
    ∧ (rawOutcome desc RunMode.probeTodo proc = Outcome.fail →
        (runSpec desc RunMode.probeTodo proc).1 = Outcome.todo)
    ∧ (rawOutcome desc RunMode.probeTodo proc = Outcome.pass →
        (runSpec desc RunMode.probeTodo proc).1 = Outcome.fail) := by
  refine ⟨?_, ?_, ?_, ?_⟩
  · simp [runSpec, applyTodoPolicy, hign, htodo]
  · simp [runSpec, applyTodoPolicy, hign, htodo]
  · intro h
    simp [runSpec, applyTodoPolicy, hign, htodo, h]
  · intro h
    simp [runSpec, applyTodoPolicy, hign, htodo, h]

/-- Witness for C1 at a concrete todo case. -/
theorem runSpec_todo_policy_witness :
    let desc : CaseDescriptor :=
      { kind := ExpectKind.outputMatch "a", expectedWarnings := none,
        ignore := false, todo := true, warningTodo := false }
    let proc : ProcResult :=
      { stdout := "b", errText := "", exitCode := 0, warnings := [] }
    (runSpec desc RunMode.normal proc).1 = Outcome.todo
    ∧ (runSpec desc RunMode.runTodo proc).1 = rawOutcome desc RunMode.runTodo proc
    ∧ (rawOutcome desc RunMode.probeTodo proc = Outcome.fail →
        (runSpec desc RunMode.probeTodo proc).1 = Outcome.todo)
    ∧ (rawOutcome desc RunMode.probeTodo proc = Outcome.pass →
        (runSpec desc RunMode.probeTodo proc).1 = Outcome.fail) :=
  runSpec_todo_policy _ _ (by decide) (by decide)

/-- C2: any case with the `ignore` flag set yields outcome `skip` and the
process under test is not invoked, in every run mode and for every flag
combination (in particular even when `todo` is also set). -/
theorem runSpec_ignore_skips (desc : CaseDescriptor) (mode : RunMode)
    (proc : ProcResult) (hign : desc.ignore = true) :
    runSpec desc mode proc = (Outcome.skip, false) := by
  simp [runSpec, hign]

/-- Witness for C2 at a concrete ignored case that also has `todo` set. -/
theorem runSpec_ignore_skips_witness :
    runSpec
      { kind := ExpectKind.outputMatch "a", expectedWarnings := some ["w"],
        ignore := true, todo := true, warningTodo := true }
      RunMode.probeTodo
      { stdout := "a", errText := "", exitCode := 0, warnings := [] }
      = (Outcome.skip, false) :=
  runSpec_ignore_skips _ _ _ (by decide)

/-- C3 counterexample: a case with `warningTodo` set whose primary output
matches and whose warnings mismatch, but which also carries the `todo`
flag, yields `todo` (not `pass`) under normal mode, so the claim as stated
over every `warningTodo` case fails. -/
theorem runSpec_warning_todo_counterexample :
    let desc : CaseDescriptor :=
      { kind := ExpectKind.outputMatch "x", expectedWarnings := some ["warn"],
        ignore := false, todo := true, warningTodo := true }
    let proc : ProcResult :=
      { stdout := "x", errText := "", exitCode := 0, warnings := [] }
    desc.warningTodo = true
    ∧ primaryOk desc.kind proc = true
    ∧ desc.expectedWarnings = some ["warn"]
    ∧ proc.warnings ≠ ["warn"]
    ∧ (runSpec desc RunMode.normal proc).1 ≠ Outcome.pass := by
  refine ⟨rfl, by decide, rfl, by decide, by decide⟩

/-- C3 amended: for a case with `warningTodo` set and both `ignore` and
`todo` unset, whose primary output matches but whose warnings mismatch,
`runSpec` returns `pass` under normal mode (the warning check is skipped)
and `fail` under run-todo mode (the warning check is enforced). -/
theorem runSpec_warning_todo_modes (desc : CaseDescriptor) (proc : ProcResult)
    (ws : List String)
    (hwt : desc.warningTodo = true) (hign : desc.ignore = false)
    (htodo : desc.todo = false)
    (hok : primaryOk desc.kind proc = true)
    (hexp : desc.expectedWarnings = some ws)
    (hmis : proc.warnings ≠ ws) :
    (runSpec desc RunMode.normal proc).1 = Outcome.pass
    ∧ (runSpec desc RunMode.runTodo proc).1 = Outcome.fail := by
  constructor
  · simp [runSpec, applyTodoPolicy, rawOutcome, warningsOk, warningCheckActive,
      hign, htodo, hwt, hok]
  · simp [runSpec, applyTodoPolicy, rawOutcome, warningsOk, warningCheckActive,
      hign, htodo, hwt, hok, hexp, hmis]

/-- Witness for the amended C3 at a concrete case. -/
theorem runSpec_warning_todo_modes_witness :
    let desc : CaseDescriptor :=
      { kind := ExpectKind.outputMatch "x", expectedWarnings := some ["warn"],
        ignore := false, todo := false, warningTodo := true }
    let proc : ProcResult :=
      { stdout := "x", errText := "", exitCode := 0, warnings := ["other"] }
    (runSpec desc RunMode.normal proc).1 = Outcome.pass
    ∧ (runSpec desc RunMode.runTodo proc).1 = Outcome.fail :=
  runSpec_warning_todo_modes _ _ ["warn"] (by decide) (by decide) (by decide)
    (by decide) rfl (by decide)

/-- C4 counterexample: a case whose descriptor specifies an expected warning
list but whose `warningTodo` flag suppresses the warning check under normal
mode yields `pass` despite mismatched (here: permuted) warnings, so the
claim as stated over every case with an expected warning list fails. -/
theorem runSpec_warning_exact_counterexample :
    let desc : CaseDescriptor :=
      { kind := ExpectKind.outputMatch "out", expectedWarnings := some ["b", "a"],
        ignore := false, todo := false, warningTodo := true }
    let proc : ProcResult :=
      { stdout := "out", errText := "", exitCode := 0, warnings := ["a", "b"] }
    desc.expectedWarnings = some ["b", "a"]
    ∧ proc.warnings ≠ ["b", "a"]
    ∧ (runSpec desc RunMode.normal proc).1 ≠ Outcome.fail := by
  refine ⟨rfl, by decide, by decide⟩

/-- C4 amended: for a case with `ignore` and `todo` unset whose warning
check is active (`warningTodo` unset or mode not normal) and whose
descriptor specifies an expected warning list, any deviation of the emitted
warnings from the expected list — a missing warning, an extraneous warning,
or a permutation — yields `fail`, even when the primary output or error
matched. -/
theorem runSpec_warning_exact (desc : CaseDescriptor) (mode : RunMode)
    (proc : ProcResult) (ws : List String)
    (hign : desc.ignore = false) (htodo : desc.todo = false)
    (hact : warningCheckActive desc mode = true)
    (hexp : desc.expectedWarnings = some ws)
    (hmis : proc.warnings ≠ ws) :
    (runSpec desc mode proc).1 = Outcome.fail := by
  simp [runSpec, applyTodoPolicy, rawOutcome, warningsOk, hign, htodo, hact,
    hexp, hmis]

/-- Witness for the amended C4 at a concrete permuted-warnings case. -/
theorem runSpec_warning_exact_witness :
    (runSpec
      { kind := ExpectKind.outputMatch "out", expectedWarnings := some ["b", "a"],
        ignore := false, todo := false, warningTodo := false }
      RunMode.normal
      { stdout := "out", errText := "", exitCode := 0, warnings := ["a", "b"] }).1
      = Outcome.fail :=
  runSpec_warning_exact _ _ _ ["b", "a"] (by decide) (by decide) (by decide)
    rfl (by decide)

/-- C5: materializing an archive subtree and reading back any file reachable
by navigation reproduces its byte content exactly (given the archive's
unique-child-names invariant); after `cleanup` no path under the handle's
root exists on the filesystem; and `cleanup` applied a second time to the
same root leaves the filesystem unchanged (idempotent no-op — being a total
function, it never throws). -/
theorem materialize_roundtrip_cleanup
    (e : ArchiveEntry) (dest p : List String) (n : String) (c : List Nat)
    (fs : List (List String × List Nat)) (root q : List String)
    (hu : uniqueNames e = true)
    (hnav : navigate e p = some (ArchiveEntry.file n c)) :
    lookupFS (writeToDisk e dest) (dest ++ p) = some c
    ∧ lookupFS (cleanup fs root) (root ++ q) = none
    ∧ cleanup (cleanup fs root) root = cleanup fs root := by
  refine ⟨lookup_writeToDisk p e dest n c hu hnav, ?_, ?_⟩
  · apply lookupFS_eq_none
    intro pr hpr heq
    have hmem := List.mem_filter.mp hpr
    have hfalse : underRoot root pr.1 = false := by
      have h2 := hmem.2
      simp at h2
      exact h2
    rw [heq, underRoot_append] at hfalse
    exact absurd hfalse (by simp)
  · apply List.filter_eq_self.mpr
    intro a ha
    exact (List.mem_filter.mp ha).2

/-- Witness for C5 at a concrete one-file archive and filesystem. -/
theorem materialize_roundtrip_cleanup_witness :
    lookupFS
      (writeToDisk
        (ArchiveEntry.dir "spec"
          (EntryList.cons (ArchiveEntry.file "input.scss" [104, 105]) EntryList.nil))
        ["tmp"])
      (["tmp"] ++ ["input.scss"]) = some [104, 105]
    ∧ lookupFS
        (cleanup [(["tmp", "spec", "input.scss"], [104, 105]), (["other"], [1])] ["tmp"])
        (["tmp"] ++ ["spec", "input.scss"]) = none
    ∧ cleanup
        (cleanup [(["tmp", "spec", "input.scss"], [104, 105]), (["other"], [1])] ["tmp"])
        ["tmp"]
      = cleanup [(["tmp", "spec", "input.scss"], [104, 105]), (["other"], [1])] ["tmp"] :=
  materialize_roundtrip_cleanup _ ["tmp"] ["input.scss"] "input.scss" [104, 105]
    _ ["tmp"] ["spec", "input.scss"] rfl rfl

/-- C7: `toThrowSassException` fails with an "expected ... to throw" message
whenever the callback returns normally — both for a synchronous non-Promise
return and for a Promise that resolves — and hands the thrown value to the
exception checks only for a synchronous throw or a rejected Promise. -/
theorem toThrowSassException_requires_throw (opts : ToThrowSassExceptionOptions)
    (d : String) :
    toThrowSassException (ReceivedCallback.syncReturnsValue d) opts
      = Except.ok { pass := false, message := "expected " ++ d ++ " to throw" }
    ∧ toThrowSassException (ReceivedCallback.promiseResolves d) opts
      = Except.ok { pass := false, message := "expected " ++ d ++ " to throw" }
    ∧ (∀ t d2, toThrowSassException (ReceivedCallback.syncThrows t d2) opts
        = Except.ok (verifyThrown t opts))
    ∧ (∀ t d2, toThrowSassException (ReceivedCallback.promiseRejects t d2) opts
        = Except.ok (verifyThrown t opts)) :=
  ⟨rfl, rfl, fun _ _ => rfl, fun _ _ => rfl⟩

/-- C9: in `verifyThrown` an option counts as given only when truthy: with
`line = 0` the result is identical to an omitted line option (so the line
check can never fire), with `url = ""` identical to an omitted url option,
and with both falsy the verdict on an exception depends only on the
`sassMessage` and `sassStack` fields. -/
theorem verifyThrown_falsy_options (t : Thrown) (u : Option String)
    (nu : Option Bool) (l : Option Nat) :
    verifyThrown t { line := some 0, url := u, noUrl := nu }
      = verifyThrown t { line := none, url := u, noUrl := nu }
    ∧ verifyThrown t { line := l, url := some "", noUrl := nu }
      = verifyThrown t { line := l, url := none, noUrl := nu }
    ∧ (∀ span m s d, t = Thrown.sassException span m s d →
        (verifyThrown t { line := some 0, url := some "", noUrl := none }).pass
          = (m && s)) := by
  refine ⟨?_, ?_, ?_⟩
  · cases t with
    | other d => rfl
    | sassException span m s d => simp [verifyThrown, numTruthy]
  · cases t with
    | other d => rfl
    | sassException span m s d => simp [verifyThrown, strTruthy]
  · intro span m s d ht
    subst ht
    cases m <;> cases s <;>
      simp [verifyThrown, numTruthy, strTruthy, boolTruthy]

/-- Witness for C9 at a concrete exception with a message but no stack. -/
theorem verifyThrown_falsy_options_witness :
    (verifyThrown
      (Thrown.sassException { url := some "u.scss", startLine := some 3 } true false "E")
      { line := some 0, url := some "", noUrl := none }).pass = (true && false) :=
  (verifyThrown_falsy_options
    (Thrown.sassException { url := some "u.scss", startLine := some 3 } true false "E")
    (some "") none (some 0)).2.2 _ _ _ _ rfl

/-- C10: `captureStdio` and `captureStdioAsync` always remove the
interception hook before returning — the hook stack after the call equals
the one before it, also when the block throws (or its Promise rejects); in
that case the exception propagates and no captured text is returned, while
on normal completion the accumulated stdout and stderr text is returned. -/
theorem captureStdio_always_unhooks (E : Type) (st : List Nat)
    (block : BlockBehavior E) :
    (captureStdio st block).1 = st
    ∧ (captureStdioAsync st block).1 = st
    ∧ (∀ e, block.thrown = some e →
        (captureStdio st block).2 = Except.error e
        ∧ (captureStdioAsync st block).2 = Except.error e)
    ∧ (block.thrown = none →
        (captureStdio st block).2
          = Except.ok (String.join block.outChunks, String.join block.errChunks)
        ∧ (captureStdioAsync st block).2
          = Except.ok (String.join block.outChunks, String.join block.errChunks)) := by
  refine ⟨?_, ?_, ?_, ?_⟩
  · cases h : block.thrown <;> simp [captureStdio, installHook, unhook, h]
  · cases h : block.thrown <;> simp [captureStdioAsync, installHook, unhook, h]
  · intro e he
    exact ⟨by simp [captureStdio, he], by simp [captureStdioAsync, he]⟩
  · intro he
    exact ⟨by simp [captureStdio, installHook, unhook, he],
      by simp [captureStdioAsync, installHook, unhook, he]⟩

/-- Witness for C10 at a concrete throwing block. -/
theorem captureStdio_always_unhooks_witness :
    (captureStdio [7] { outChunks := ["a"], errChunks := ["b"], thrown := some "boom" }).1 = [7]
    ∧ (captureStdio [7] { outChunks := ["a"], errChunks := ["b"], thrown := some "boom" }).2 = Except.error "boom" :=
  ⟨(captureStdio_always_unhooks String [7] _).1,
    ((captureStdio_always_unhooks String [7] _).2.2.1 "boom" rfl).1⟩

/-- Boolean helper: a guard `a && !b` is the negation of the check
`!a || b`. -/
theorem bool_and_not_eq : ∀ a b : Bool, (a && !b) = !(!a || b) := by decide

/-- Boolean helper: a guard `a && b` is the negation of the check
`!a || !b`. -/
theorem bool_and_eq : ∀ a b : Bool, (a && b) = !(!a || !b) := by decide

/-- C6: `verifyThrown` passes exactly when all applicable checks hold, and
otherwise fails with the message of the first failing check in the order:
is a `sass.Exception`; truthy url option matches the span URL; truthy
noUrl option finds no span URL; truthy line option matches the span start
line; `sassMessage` present; `sassStack` present. -/
theorem verifyThrown_first_failure (t : Thrown) (opts : ToThrowSassExceptionOptions) :
    ((verifyThrown t opts).pass = true ↔
      (chkSassException t && chkUrl t opts && chkNoUrl t opts && chkLine t opts
        && chkSassMessage t && chkSassStack t) = true)
    ∧ (chkSassException t = false →
        (verifyThrown t opts).message
          = "expected " ++ displayOf t ++ " to be a sass.Exception")
    ∧ (chkSassException t = true → chkUrl t opts = false →
        (verifyThrown t opts).message
          = "expected " ++ showOptStr opts.url ++ ", was "
            ++ showOptStr (spanUrlOf t) ++ ":\n" ++ displayOf t)
    ∧ (chkSassException t = true → chkUrl t opts = true → chkNoUrl t opts = false →
        (verifyThrown t opts).message = "expected no URL:\n" ++ displayOf t)
    ∧ (chkSassException t = true → chkUrl t opts = true → chkNoUrl t opts = true →
        chkLine t opts = false →
        (verifyThrown t opts).message
          = "expected to start on line " ++ showOptNat opts.line ++ ", was "
            ++ showOptNat (startLineOf t) ++ ":\n" ++ displayOf t)
    ∧ (chkSassException t = true → chkUrl t opts = true → chkNoUrl t opts = true →
        chkLine t opts = true → chkSassMessage t = false →
        (verifyThrown t opts).message = "expected a sassMessage field:\n" ++ displayOf t)
    ∧ (chkSassException t = true → chkUrl t opts = true → chkNoUrl t opts = true →
        chkLine t opts = true → chkSassMessage t = true → chkSassStack t = false →
        (verifyThrown t opts).message = "expected a sassStack field:\n" ++ displayOf t) := by
  cases t with
  | other d =>
    refine ⟨?_, ?_, ?_, ?_, ?_, ?_, ?_⟩ <;>
      simp [verifyThrown, chkSassException, chkUrl, chkNoUrl, chkLine,
        chkSassMessage, chkSassStack, displayOf]
  | sassException span m s d =>
    have e2 : (strTruthy opts.url && !(span.url == opts.url))
        = !(chkUrl (Thrown.sassException span m s d) opts) := by
      simp only [chkUrl]
      exact bool_and_not_eq _ _
    have e3 : (boolTruthy opts.noUrl && span.url.isSome)
        = !(chkNoUrl (Thrown.sassException span m s d) opts) := by
      simp only [chkNoUrl]
      exact bool_and_eq _ _
    have e4 : (numTruthy opts.line && !(span.startLine == opts.line))
        = !(chkLine (Thrown.sassException span m s d) opts) := by
      simp only [chkLine]
      exact bool_and_not_eq _ _
    simp only [verifyThrown, chkSassException, chkSassMessage, chkSassStack,
      displayOf, spanUrlOf, startLineOf]
    rw [e2, e3, e4]
    generalize chkUrl (Thrown.sassException span m s d) opts = c2
    generalize chkNoUrl (Thrown.sassException span m s d) opts = c3
    generalize chkLine (Thrown.sassException span m s d) opts = c4
    refine ⟨?_, ?_, ?_, ?_, ?_, ?_, ?_⟩
    · cases c2 <;> cases c3 <;> cases c4 <;> cases m <;> cases s <;> simp
      split_ifs <;> rfl
    · intro h
      exact absurd h (by decide)
    · intro _ h2
      simp [h2]
    · intro _ h2 h3
      simp [h2, h3]
    · intro _ h2 h3 h4
      simp [h2, h3, h4]
    · intro _ h2 h3 h4 h5
      simp [h2, h3, h4, h5]
    · intro _ h2 h3 h4 h5 h6
      simp [h2, h3, h4, h5, h6]

/-- Witness for C6: a thrown exception whose span URL differs from the url
option fails with the URL-mismatch message. -/
theorem verifyThrown_first_failure_witness :
    (verifyThrown (Thrown.sassException { url := some "a.scss", startLine := some 1 } true true "E") { line := none, url := some "b.scss", noUrl := none }).message
      = "expected " ++ showOptStr (some "b.scss") ++ ", was "
        ++ showOptStr (spanUrlOf (Thrown.sassException { url := some "a.scss", startLine := some 1 } true true "E"))
        ++ ":\n"
        ++ displayOf (Thrown.sassException { url := some "a.scss", startLine := some 1 } true true "E") :=
  (verifyThrown_first_failure
    (Thrown.sassException { url := some "a.scss", startLine := some 1 } true true "E")
    { line := none, url := some "b.scss", noUrl := none }).2.2.1 rfl (by decide)

/-- C8: `toEqualWithHash` passes exactly when the received value is a
non-null object exposing `equals` and `hashCode` methods that agree with
the reference; each missing capability fails with its own distinct
diagnostic, and the equality and hash-code mismatches each fail with their
own diagnostic. -/
theorem toEqualWithHash_spec (received : ReceivedVal) (actual : RefValue) :
    ((toEqualWithHash received actual).pass = true ↔
      ∃ equalsFn hash d, received = ReceivedVal.valueObj equalsFn hash d
        ∧ equalsFn actual = true ∧ hash = actual.hashCode)
    ∧ (∀ d, (toEqualWithHash (ReceivedVal.nonObject d) actual).message
        = "expected " ++ d ++ " to be an object")
    ∧ (∀ d, (toEqualWithHash (ReceivedVal.objNoEquals d) actual).message
        = "expected " ++ d ++ " to have an \"equals\" method")
    ∧ (∀ d, (toEqualWithHash (ReceivedVal.objNoHashCode d) actual).message
        = "expected " ++ d ++ " to have a \"hashCode\" method")
    ∧ (∀ d, (toEqualWithHash (ReceivedVal.objNoEquals d) actual).message
        ≠ (toEqualWithHash (ReceivedVal.objNoHashCode d) actual).message)
    ∧ (∀ equalsFn hash d, equalsFn actual = false →
        (toEqualWithHash (ReceivedVal.valueObj equalsFn hash d) actual).message
          = "expected " ++ d ++ " to be .equal() to " ++ actual.display)
    ∧ (∀ equalsFn hash d, equalsFn actual = true → hash ≠ actual.hashCode →
        (toEqualWithHash (ReceivedVal.valueObj equalsFn hash d) actual).message
          = "expected " ++ d ++ " to have the same .hashCode() as "
            ++ actual.display) := by
  refine ⟨?_, fun d => rfl, fun d => rfl, fun d => rfl, ?_, ?_, ?_⟩
  · cases received with
    | nonObject d => simp [toEqualWithHash]
    | objNoEquals d => simp [toEqualWithHash]
    | objNoHashCode d => simp [toEqualWithHash]
    | valueObj f h d =>
      constructor
      · intro hpass
        by_cases hf : f actual = true
        · by_cases hh : h = actual.hashCode
          · exact ⟨f, h, d, rfl, hf, hh⟩
          · simp [toEqualWithHash, hf, hh] at hpass
        · simp [toEqualWithHash, hf] at hpass
      · rintro ⟨f2, h2, d2, heq, hf2, hh2⟩
        rw [ReceivedVal.valueObj.injEq] at heq
        obtain ⟨hq1, hq2, hq3⟩ := heq
        subst hq1
        subst hq2
        simp [toEqualWithHash, hf2, hh2]
  · intro d h
    simp only [toEqualWithHash] at h
    have hl := congrArg String.length h
    simp only [String.length_append] at hl
    have e1 : (" to have an \"equals\" method" : String).length = 27 := rfl
    have e2 : (" to have a \"hashCode\" method" : String).length = 28 := rfl
    rw [e1, e2] at hl
    omega
  · intro f h d hf
    simp [toEqualWithHash, hf]
  · intro f h d hf hh
    simp [toEqualWithHash, hf, hh]

/-- Witness for C8: a value object that is not `.equal()` to the reference
fails with the equality diagnostic. -/
theorem toEqualWithHash_spec_witness :
    (toEqualWithHash (ReceivedVal.valueObj (fun _ => false) 3 "obj") { hashCode := 5, display := "ref" }).message
      = "expected " ++ "obj" ++ " to be .equal() to "
        ++ (RefValue.mk 5 "ref").display :=
  (toEqualWithHash_spec (ReceivedVal.valueObj (fun _ => false) 3 "obj")
    { hashCode := 5, display := "ref" }).2.2.2.2.2.1 (fun _ => false) 3 "obj" rfl
